import Mathlib

/-!
# Verification of the miniraft replica core (`src/server.rs`)

A shallow embedding of the Raft replica state machine implemented in
`src/server.rs`.  The repository modules `log.rs` and `rpc.rs` are not part of
the sources available here; the handful of items the server uses from them
(message structs, `last_idx`, `last_term`, `append_entries`, `deliver_msg`)
are modelled from the specification and marked as such in their doc comments.

Rust panics (`expect`, `panic!`, `bail` is not a panic, and usize underflow)
are modelled by `Option`: a handler returns `none` exactly when the Rust code
aborts.  Machine integers (`u64` terms, `usize` indices, `u32` ticks) are
modelled as `Nat`; the only place where bounded arithmetic is observable is
`usize::saturating_add` in `quorum_size` and the `usize` underflow
`prefix_len - 1` in `replicate_log`, both modelled explicitly.
-/

/-- Type alias for a Raft leadership term (`u64`). -/
abbrev Term := Nat

/-- Type alias for the ID of a single Raft server (`usize`). -/
abbrev ServerId := Nat

/-- Type alias for a unit of logical time (`u32`). -/
abbrev Ticks := Nat

/-- Type alias for a log index (`usize`). -/
abbrev LogIndex := Nat

/-- Largest value of a `usize` (64-bit platform). -/
def USIZE_MAX : Nat := 2 ^ 64 - 1

/-- Modelled from the spec: `LogEntry` lives in the missing `log.rs`.
§3: "LogEntry: pair (term: Term, command: T)"; `server.rs` constructs it as
`LogEntry { term, data }`. -/
structure LogEntry (T : Type) where
  term : Term
  data : T
deriving DecidableEq, Repr

/-- Modelled from the spec: the `Log` struct of the missing `log.rs`.
§3: an ordered sequence of entries plus cursors `committed_len` and
`applied_len` (invariant `applied_len ≤ committed_len ≤ len(entries)`).
The `delivered` field records, in order, the commands handed to the
application (§6.2), standing in for the `App` collaborator. -/
structure Log (T : Type) where
  entries : List (LogEntry T)
  committed_len : LogIndex
  applied_len : LogIndex
  delivered : List T
deriving DecidableEq, Repr

/-- Modelled from the spec: `last_term` of the missing `log.rs`.
§4.2: "last_log_term = term of last entry or 0 if empty"; B1: empty log has
`last_log_term = 0`. -/
def Log.last_term (l : Log T) : Term :=
  match l.entries.getLast? with
  | some e => e.term
  | none => 0

/-- Modelled from the spec: `last_idx` of the missing `log.rs`.
§9 states `sent_up_to` is initialized to `last_idx + 1` on election while
§4.4 states it equals `len(entries)`, which pins `last_idx = len(entries) − 1`
on a nonempty log; B1 pins `last_idx = 0` on the empty log (`Nat` subtraction
gives exactly this saturating behaviour). -/
def Log.last_idx (l : Log T) : LogIndex :=
  l.entries.length - 1

/-- Modelled from the spec: the splice rule §4.8 of the missing
`log.rs::append_entries`, applied to the suffix of the existing log beyond the
accepted prefix.  At the first term mismatch the conflicting suffix is
discarded and the rest of the batch is taken; matching positions keep the
existing entry; a batch running past the existing log is appended. -/
def spliceSuffix {T : Type} : List (LogEntry T) → List (LogEntry T) → List (LogEntry T)
  | existing, [] => existing
  | [], batch => batch
  | e :: es, b :: bs => if e.term = b.term then e :: spliceSuffix es bs else b :: bs

/-- Modelled from the spec: delivery of newly committed entries to the
application, §4.7 step 3 / §6.2: apply entries `[applied_len, committed_len)`
in log order and advance `applied_len`. -/
def Log.applyCommitted (l : Log T) : Log T :=
  { l with
    delivered :=
      l.delivered ++ ((l.entries.drop l.applied_len).take (l.committed_len - l.applied_len)).map (·.data)
    applied_len := max l.applied_len l.committed_len }

/-- Modelled from the spec: `append_entries` of the missing `log.rs`, per
§4.7 step 3 and §4.8: splice the batch in at the accepted prefix, advance
`committed_len` to `min(leader_commit, len(entries))` (never moving it
backwards), and deliver any newly committed entries to the application. -/
def Log.append_entries (l : Log T) (prefix_len : LogIndex) (leader_commit : LogIndex)
    (batch : List (LogEntry T)) : Log T :=
  let entries := l.entries.take prefix_len ++ spliceSuffix (l.entries.drop prefix_len) batch
  let committed := max l.committed_len (min leader_commit entries.length)
  Log.applyCommitted { l with entries := entries, committed_len := committed }

/-- Modelled from the spec: one `deliver_msg` call of the missing `log.rs`,
as used by the leader's commit loop: deliver the next unapplied entry (§6.2:
exactly once, in log order) and advance `applied_len`. -/
def Log.deliver_msg (l : Log T) : Log T :=
  match l.entries.get? l.applied_len with
  | some e => { l with delivered := l.delivered ++ [e.data], applied_len := l.applied_len + 1 }
  | none => l

/-- Configuration options for a Raft server (`RaftConfig`). -/
structure RaftConfig where
  election_timeout : Ticks
  election_timeout_jitter : Ticks
  heartbeat_interval : Ticks
deriving DecidableEq, Repr

/-- State a leader tracks per follower (`NodeReplicationState`). -/
structure NodeReplicationState where
  sent_up_to : LogIndex
  acked_up_to : LogIndex
deriving DecidableEq, Repr

/-- Possible states a Raft node can be in (`RaftLeadershipState`).
`BTreeSet ServerId` is modelled as a strictly sorted list of ids and
`BTreeMap ServerId NodeReplicationState` as an association list strictly
sorted by key, so iteration order (ascending keys) is preserved. -/
inductive RaftLeadershipState
  /-- `Follower { election_time, leader }` -/
  | Follower (election_time : Ticks) (leader : Option ServerId)
  /-- `Candidate { election_time, votes_received }` -/
  | Candidate (election_time : Ticks) (votes_received : List ServerId)
  /-- `Leader { followers, heartbeat_timeout }` -/
  | Leader (followers : List (ServerId × NodeReplicationState)) (heartbeat_timeout : Ticks)
deriving DecidableEq, Repr

/-- A Raft server (`RaftServer<T, S>`).  The seeded `ChaCha8Rng` is external
to the repository; it is modelled as a pre-drawn stream of jitter samples
(spec B3: each sample lies in `[timeout − jitter, timeout + jitter]`); none of
the verified claims depend on the sampled values. -/
structure RaftServer (T : Type) where
  id : ServerId
  peers : List ServerId
  config : RaftConfig
  current_term : Term
  voted_for : Option ServerId
  log : Log T
  leadership_state : RaftLeadershipState
  rng : List Ticks
deriving DecidableEq, Repr

/-- `BTreeSet::insert` on the sorted-list model of a set of ids. -/
def btreeInsert (x : ServerId) : List ServerId → List ServerId
  | [] => [x]
  | y :: ys =>
    if x < y then x :: y :: ys
    else if x = y then y :: ys
    else y :: btreeInsert x ys

/-- `BTreeMap::get` on the association-list model of the followers map. -/
def alistGet (k : ServerId) : List (ServerId × NodeReplicationState) → Option NodeReplicationState
  | [] => none
  | p :: ps => if p.1 = k then some p.2 else alistGet k ps

/-- In-place update through `BTreeMap::get_mut` on the association-list
model: replaces the value stored at `k`, leaving other keys untouched. -/
def alistSet (k : ServerId) (v : NodeReplicationState) :
    List (ServerId × NodeReplicationState) → List (ServerId × NodeReplicationState) :=
  List.map fun p => if p.1 = k then (p.1, v) else p

/-- Messages are addressed either to a single peer or broadcast (`Target`). -/
inductive Target
  | Single (id : ServerId)
  | Broadcast
deriving DecidableEq, Repr

/-- Modelled from the spec (§6.1): `VoteRequest` of the missing `rpc.rs`;
field names as used by `server.rs`. -/
structure VoteRequest where
  candidate_term : Term
  candidate_id : ServerId
  candidate_last_log_idx : LogIndex
  candidate_last_log_term : Term
deriving DecidableEq, Repr

/-- Modelled from the spec (§6.1): `VoteResponse` of the missing `rpc.rs`;
field names as used by `server.rs`. -/
structure VoteResponse where
  votee_id : ServerId
  term : Term
  vote_granted : Bool
deriving DecidableEq, Repr

/-- Modelled from the spec (§6.1): `AppendRequest` of the missing `rpc.rs`;
field names as used by `server.rs` (`leader_last_log_idx` is the spec's
`prev_len`, `leader_last_log_term` its `prev_term`). -/
structure AppendRequest (T : Type) where
  entries : List (LogEntry T)
  leader_id : ServerId
  leader_term : Term
  leader_commit : LogIndex
  leader_last_log_idx : LogIndex
  leader_last_log_term : Term
deriving DecidableEq, Repr

/-- Modelled from the spec (§6.1): `AppendResponse` of the missing `rpc.rs`;
field names as used by `server.rs` (`ack_idx` is the spec's `ack_len`). -/
structure AppendResponse where
  ok : Bool
  term : Term
  ack_idx : LogIndex
  follower_id : ServerId
deriving DecidableEq, Repr

/-- The four message variants (`RPC<T>`). -/
inductive RPC (T : Type)
  | VoteRequest (req : VoteRequest)
  | VoteResponse (res : VoteResponse)
  | AppendRequest (req : AppendRequest T)
  | AppendResponse (res : AppendResponse)
deriving DecidableEq, Repr

/-- An outbound message paired with its target (`SendableMessage<T>`). -/
abbrev SendableMessage (T : Type) := Target × RPC T

/-- `RaftServer::random_election_time`: draw the next jitter sample from the
modelled generator stream (defaulting to the base timeout on an exhausted
stream, a case the real generator never hits). -/
def random_election_time (s : RaftServer T) : Ticks × RaftServer T :=
  (s.rng.headD s.config.election_timeout, { s with rng := s.rng.tail })

/-- `RaftServer::reset_to_follower`: adopt `new_term`, clear the vote and
become a Follower with no known leader and a fresh election timer. -/
def reset_to_follower (s : RaftServer T) (new_term : Term) : RaftServer T :=
  let (et, s) := random_election_time s
  { s with
    current_term := new_term
    voted_for := none
    leadership_state := .Follower et none }

/-- `RaftServer::quorum_size`: `self.peers.len().saturating_add(2).div(2)`.
The saturating add is modelled exactly at `usize` width. -/
def quorum_size (s : RaftServer T) : Nat :=
  (min (s.peers.length + 2) USIZE_MAX) / 2

example : USIZE_MAX / 2 = 2 ^ 63 - 1 := by decide

/-- The `sending_logic` closure of `RaftServer::replicate_log` for one target
follower.  `none` models the two `expect` aborts: an unknown target, and the
out-of-range `entries.get(prefix_len - 1)` — when `prefix_len = 0` the `usize`
subtraction wraps to `USIZE_MAX`, which is out of range for any real vector,
so that case also aborts. -/
def sending_logic (s : RaftServer T) (followers : List (ServerId × NodeReplicationState))
    (tgt : ServerId) : Option (SendableMessage T) := do
  let fs ← alistGet tgt followers
  let prefix_len := fs.sent_up_to
  if prefix_len = 0 then
    none
  else do
    let e ← s.log.entries.get? (prefix_len - 1)
    let entries := s.log.entries.drop prefix_len
    pure (Target.Single tgt,
      RPC.AppendRequest
        { entries := entries
          leader_id := s.id
          leader_term := s.current_term
          leader_commit := s.log.committed_len
          leader_last_log_idx := prefix_len
          leader_last_log_term := e.term })

/-- `RaftServer::replicate_log`: build AppendRequests for one follower or for
all of them (in ascending key order of the `BTreeMap`); do nothing when not
Leader.  The receiver is not mutated; only messages are produced. -/
def replicate_log (s : RaftServer T) (target : Target) : Option (List (SendableMessage T)) :=
  match s.leadership_state with
  | .Leader followers _ =>
    match target with
    | .Single tgt => (sending_logic s followers tgt).map ([·])
    | .Broadcast => (followers.map (·.1)).mapM (sending_logic s followers)
  | _ => some []

/-- The election branch of `RaftServer::tick`: bump the term, vote for self,
become Candidate with a fresh timer and broadcast a VoteRequest. -/
def start_election (s : RaftServer T) : RaftServer T × List (SendableMessage T) :=
  let s := { s with current_term := s.current_term + 1, voted_for := some s.id }
  let (et, s) := random_election_time s
  let s := { s with leadership_state := .Candidate et [s.id] }
  (s, [(Target.Broadcast,
        RPC.VoteRequest
          { candidate_term := s.current_term
            candidate_id := s.id
            candidate_last_log_idx := s.log.last_idx
            candidate_last_log_term := s.log.last_term })])

/-- `RaftServer::tick`: decrement the active timer (saturating) and fire the
election or heartbeat transition when it reaches zero. -/
def tick (s : RaftServer T) : Option (RaftServer T × List (SendableMessage T)) :=
  match s.leadership_state with
  | .Follower et leader =>
    let et := et - 1
    if et = 0 then some (start_election s)
    else some ({ s with leadership_state := .Follower et leader }, [])
  | .Candidate et votes =>
    let et := et - 1
    if et = 0 then some (start_election s)
    else some ({ s with leadership_state := .Candidate et votes }, [])
  | .Leader followers hb =>
    let hb := hb - 1
    let s := { s with leadership_state := .Leader followers hb }
    if hb = 0 then (replicate_log s Target.Broadcast).map fun ms => (s, ms)
    else some (s, [])

/-- `RaftServer::client_request`: a Leader appends the entry and calls
`replicate_log`, but the returned `Vec` of messages is discarded (the Rust
signature is `Result<()>`), so the entry point itself emits no messages; a
non-leader bails with a fixed error message. -/
def client_request (s : RaftServer T) (msg : T) :
    Option (RaftServer T × Except String Unit × List (SendableMessage T)) :=
  match s.leadership_state with
  | .Leader _ _ =>
    let s := { s with log := { s.log with entries := s.log.entries ++ [⟨s.current_term, msg⟩] } }
    (replicate_log s Target.Broadcast).map fun _ => (s, Except.ok (), [])
  | _ => some (s, Except.error "cannot add a log entry to a non-leader!", [])

/-- `RaftServer::rpc_vote_request`: step down on a higher term, grant the vote
iff the candidate's log is up to date, the terms match and our vote is free
(or already theirs), and reply to the candidate. -/
def rpc_vote_request (s : RaftServer T) (req : VoteRequest) :
    RaftServer T × List (SendableMessage T) :=
  let s := if req.candidate_term > s.current_term then reset_to_follower s req.candidate_term else s
  let candidate_has_more_recent_log : Bool := decide (s.log.last_term < req.candidate_last_log_term)
  let candidate_has_longer_log : Bool :=
    decide (req.candidate_last_log_term = s.log.last_term) &&
      decide (s.log.last_idx ≤ req.candidate_last_log_idx)
  let log_ok := candidate_has_more_recent_log || candidate_has_longer_log
  let up_to_date : Bool := decide (req.candidate_term = s.current_term)
  let havent_voted_for_them : Bool :=
    match s.voted_for with
    | some voted_candidate_id => decide (voted_candidate_id = req.candidate_id)
    | none => true
  let vote_granted := log_ok && up_to_date && havent_voted_for_them
  let s := if vote_granted then { s with voted_for := some req.candidate_id } else s
  (s, [(Target.Single req.candidate_id,
        RPC.VoteResponse { votee_id := s.id, term := s.current_term, vote_granted := vote_granted })])

/-- `RaftServer::rpc_vote_response`: step down on a higher term; as Candidate
count a granted same-term vote and, on reaching quorum, become Leader with a
followers map built from `votes_received` (ascending id order), each entry
initialized to `(sent_up_to = last_idx + 1, acked_up_to = 0)`, then broadcast
replication. -/
def rpc_vote_response (s : RaftServer T) (res : VoteResponse) :
    Option (RaftServer T × List (SendableMessage T)) :=
  let s := if res.term > s.current_term then reset_to_follower s res.term else s
  let quorum := quorum_size s
  match s.leadership_state with
  | .Candidate et votes =>
    if res.term = s.current_term ∧ res.vote_granted = true then
      let votes := btreeInsert res.votee_id votes
      if votes.length < quorum then
        some ({ s with leadership_state := .Candidate et votes }, [])
      else
        let followers := votes.map fun votee =>
          (votee, NodeReplicationState.mk (s.log.last_idx + 1) 0)
        let s := { s with leadership_state := .Leader followers s.config.heartbeat_interval }
        (replicate_log s Target.Broadcast).map fun ms => (s, ms)
    else some (s, [])
  | _ => some (s, [])

/-- The Follower arm of `RaftServer::rpc_append_request`.  On a same-term
request the Rust code evaluates `last_log_entry_matches_terms` as an eager
`let` binding — it is not short-circuited by `prefix_ok` — so the
`expect("invalid leader_last_log_idx")` aborts whenever
`prefix_len > len(entries)` (modelled by `none`). -/
def follower_append (s : RaftServer T) (req : AppendRequest T) :
    Option (RaftServer T × List (SendableMessage T)) :=
  match s.leadership_state with
  | .Follower et _ =>
    if req.leader_term = s.current_term then
      let s := { s with leadership_state := .Follower et (some req.leader_id) }
      let prefix_len := req.leader_last_log_idx
      let prefix_ok : Bool := decide (prefix_len ≤ s.log.entries.length)
      let matches? : Option Bool :=
        if prefix_len = 0 then some true
        else (s.log.entries.get? (prefix_len - 1)).map fun e =>
          decide (e.term = req.leader_last_log_term)
      match matches? with
      | none => none
      | some last_log_entry_matches_terms =>
        let s :=
          if prefix_ok && last_log_entry_matches_terms then
            { s with log := s.log.append_entries prefix_len req.leader_commit req.entries }
          else s
        some (s, [(Target.Single req.leader_id,
          RPC.AppendResponse
            { ok := prefix_ok && last_log_entry_matches_terms
              term := s.current_term
              ack_idx := s.log.entries.length
              follower_id := s.id })])
    else
      some (s, [(Target.Single req.leader_id,
        RPC.AppendResponse
          { ok := false
            term := s.current_term
            ack_idx := s.log.entries.length
            follower_id := s.id })])
  | _ => some (s, [])

/-- `RaftServer::rpc_append_request`: step down on a higher term; a Candidate
or Leader seeing an equal-term request steps down and re-dispatches it (the
recursive call lands in the Follower arm), a stale request from them is
ignored; a Follower runs the consistency check and replies. -/
def rpc_append_request (s : RaftServer T) (req : AppendRequest T) :
    Option (RaftServer T × List (SendableMessage T)) :=
  let s := if req.leader_term > s.current_term then reset_to_follower s req.leader_term else s
  match s.leadership_state with
  | .Candidate _ _ | .Leader _ _ =>
    if req.leader_term = s.current_term then
      follower_append (reset_to_follower s req.leader_term) req
    else some (s, [])
  | .Follower _ _ => follower_append s req

/-- The `while` loop of `RaftServer::commit_log_entries` with explicit fuel;
each iteration increments `committed_len`, so `len(entries)` iterations
always suffice and the fuel never runs out before the loop's own exit. -/
def commitLoop (quorum : Nat) (followers : List (ServerId × NodeReplicationState)) :
    Nat → Log T → Log T
  | 0, log => log
  | fuel + 1, log =>
    if log.committed_len < log.entries.length then
      if quorum ≤ (followers.filter fun f => decide (log.committed_len < f.2.acked_up_to)).length + 1 then
        commitLoop quorum followers fuel
          { log.deliver_msg with committed_len := log.deliver_msg.committed_len + 1 }
      else log
    else log

/-- `RaftServer::commit_log_entries`: as Leader, repeatedly commit and
deliver the next entry while a quorum of acks covers it (no other condition
is checked); do nothing otherwise. -/
def commit_log_entries (s : RaftServer T) : RaftServer T :=
  match s.leadership_state with
  | .Leader followers _ =>
    { s with log := commitLoop (quorum_size s) followers s.log.entries.length s.log }
  | _ => s

/-- `RaftServer::rpc_append_response`: step down on a higher term; as Leader
with a same-term response, record a successful ack and try to commit, or
backtrack `sent_up_to` by one and re-send on failure.  `none` models the
three aborts: an unknown follower id, a failed response with
`sent_up_to == 0`, and the explicit `panic!` on a stale-term response. -/
def rpc_append_response (s : RaftServer T) (res : AppendResponse) :
    Option (RaftServer T × List (SendableMessage T)) :=
  let s := if res.term > s.current_term then reset_to_follower s res.term else s
  match s.leadership_state with
  | .Leader followers hb =>
    if res.term = s.current_term then
      match alistGet res.follower_id followers with
      | none => none
      | some follower_state =>
        if res.ok = true ∧ follower_state.acked_up_to ≤ res.ack_idx then
          let followers := alistSet res.follower_id ⟨res.ack_idx, res.ack_idx⟩ followers
          let s := { s with leadership_state := .Leader followers hb }
          some (commit_log_entries s, [])
        else if follower_state.sent_up_to > 0 then
          let followers := alistSet res.follower_id
            { follower_state with sent_up_to := follower_state.sent_up_to - 1 } followers
          let s := { s with leadership_state := .Leader followers hb }
          (replicate_log s (Target.Single res.follower_id)).map fun ms => (s, ms)
        else none
    else none
  | _ => some (s, [])

/-- `RaftServer::receive_rpc`: demultiplex an incoming RPC to its handler. -/
def receive_rpc (s : RaftServer T) : RPC T → Option (RaftServer T × List (SendableMessage T))
  | .VoteRequest req => some (rpc_vote_request s req)
  | .VoteResponse res => rpc_vote_response s res
  | .AppendRequest req => rpc_append_request s req
  | .AppendResponse res => rpc_append_response s res

/-- `RaftServer::is_leader`. -/
def is_leader (s : RaftServer T) : Bool :=
  match s.leadership_state with
  | .Leader _ _ => true
  | _ => false

/-- The three entry points of the replica (§2): a tick, an incoming RPC, or a
client submission. -/
inductive Input (T : Type)
  | tick
  | rpc (msg : RPC T)
  | client (cmd : T)

/-- The state reached by one entry-point invocation, `none` when the Rust
code aborts. -/
def step (s : RaftServer T) : Input T → Option (RaftServer T)
  | .tick => (tick s).map (·.1)
  | .rpc m => (receive_rpc s m).map (·.1)
  | .client c => (client_request s c).map (·.1)

/-! ## Concrete replica states used in the claim theorems -/

/-- The deterministic configuration of the spec's concrete scenarios (§8):
`election_timeout = 10`, `jitter = 0`, `heartbeat_interval = 2`. -/
def testConfig : RaftConfig :=
  { election_timeout := 10, election_timeout_jitter := 0, heartbeat_interval := 2 }

/-- Build a concrete replica over `T = Nat` commands. -/
def mkServer (id : ServerId) (peers : List ServerId) (term : Term)
    (vf : Option ServerId) (log : Log Nat) (ls : RaftLeadershipState) : RaftServer Nat :=
  { id := id, peers := peers, config := testConfig, current_term := term,
    voted_for := vf, log := log, leadership_state := ls, rng := [10, 10, 10] }

/-- An empty log. -/
def emptyLog : Log Nat := { entries := [], committed_len := 0, applied_len := 0, delivered := [] }

/-- Replica 0 of a four-node cluster: peers `{1, 2, 3}`. -/
def fourNodeServer : RaftServer Nat :=
  mkServer 0 [1, 2, 3] 0 none emptyLog (.Follower 10 none)

/-- A three-node-cluster leader at term 2 whose single log entry was created
at term 1 and is acked by follower 1 (so self + one follower = 2 acks). -/
def staleEntryLeader : RaftServer Nat :=
  mkServer 0 [1, 2] 2 (some 0)
    { entries := [⟨1, 7⟩], committed_len := 0, applied_len := 0, delivered := [] }
    (.Leader [(1, ⟨1, 1⟩), (2, ⟨1, 0⟩)] 2)

/-- A follower at term 1 holding three entries, all created at term 1. -/
def threeEntryFollower : RaftServer Nat :=
  mkServer 1 [0, 2] 1 none
    { entries := [⟨1, 0⟩, ⟨1, 1⟩, ⟨1, 2⟩], committed_len := 0, applied_len := 0, delivered := [] }
    (.Follower 10 (some 0))

/-- An AppendRequest that over-claims the follower's prefix: same term as the
follower, `prev_len = 5` against a log of length 3 (spec scenario 3). -/
def overClaimReq : AppendRequest Nat :=
  { entries := [], leader_id := 0, leader_term := 1, leader_commit := 0,
    leader_last_log_idx := 5, leader_last_log_term := 1 }

/-- Candidate 0 at term 1 in the cluster `{0, 1, 2}`, holding one entry of
term 1 and its own vote. -/
def candidateZero : RaftServer Nat :=
  mkServer 0 [1, 2] 1 (some 0)
    { entries := [⟨1, 5⟩], committed_len := 0, applied_len := 0, delivered := [] }
    (.Candidate 10 [0])

/-- A granted vote from node 1 for term 1. -/
def grantFromOne : VoteResponse := { votee_id := 1, term := 1, vote_granted := true }

/-- The state `candidateZero` reaches on winning the election: a Leader whose
followers map lists the voters 0 and 1 (not the peer set `{1, 2}`). -/
def promotedZero : RaftServer Nat :=
  { candidateZero with leadership_state := .Leader [(0, ⟨1, 0⟩), (1, ⟨1, 0⟩)] 2 }

/-- The broadcast the fresh leader `promotedZero` sends to its followers map
(including one addressed to itself, id 0). -/
def promoMsgs : List (SendableMessage Nat) :=
  [(.Single 0, .AppendRequest ⟨[], 0, 1, 0, 1, 1⟩),
   (.Single 1, .AppendRequest ⟨[], 0, 1, 0, 1, 1⟩)]

/-- A leader whose record for follower 1 has been backtracked down to
`sent_up_to = 0` (the state `rpc_append_response` produces after enough
failed acks). -/
def backtrackedLeader : RaftServer Nat :=
  mkServer 0 [1, 2] 1 (some 0)
    { entries := [⟨1, 9⟩], committed_len := 0, applied_len := 0, delivered := [] }
    (.Leader [(1, ⟨0, 0⟩), (2, ⟨1, 0⟩)] 2)

/-- A freshly elected leader of the 3-node cluster at term 1, empty log. -/
def freshLeader : RaftServer Nat :=
  mkServer 0 [1, 2] 1 (some 0) emptyLog (.Leader [(1, ⟨1, 0⟩), (2, ⟨1, 0⟩)] 2)

/-- Candidate 2 campaigning at term 2. -/
def candidateTwo : RaftServer Nat :=
  mkServer 2 [0, 1] 2 (some 2) emptyLog (.Candidate 10 [2])

/-- A follower sitting at term 2. -/
def followerTwo : RaftServer Nat :=
  mkServer 2 [0, 1] 2 none emptyLog (.Follower 10 none)

/-- An AppendRequest from a stale leader of term 1 (spec scenario 5). -/
def staleReq : AppendRequest Nat :=
  { entries := [], leader_id := 0, leader_term := 1, leader_commit := 0,
    leader_last_log_idx := 0, leader_last_log_term := 0 }

/-- A leader of the 3-node cluster at term 2 with one own-term entry. -/
def termTwoLeader : RaftServer Nat :=
  mkServer 0 [1, 2] 2 (some 0)
    { entries := [⟨2, 3⟩], committed_len := 0, applied_len := 0, delivered := [] }
    (.Leader [(1, ⟨1, 1⟩), (2, ⟨1, 0⟩)] 2)

/-- A duplicated AppendResponse left over from term 1. -/
def staleAck : AppendResponse := { ok := true, term := 1, ack_idx := 1, follower_id := 1 }

/-- A follower that knows a leader (id 5)… -/
def followerWithLeader : RaftServer Nat :=
  mkServer 3 [0, 1] 1 none emptyLog (.Follower 10 (some 5))

/-- …and the same follower with no known leader. -/
def followerNoLeader : RaftServer Nat :=
  mkServer 3 [0, 1] 1 none emptyLog (.Follower 10 none)

/-! ## Claim theorems -/

/-- C1: in a 4-node cluster (peers `{1, 2, 3}`) `quorum_size` returns
`(3 + 2) / 2 = 2` and not the smallest majority `⌊4/2⌋ + 1 = 3` stated by the
claim — two disjoint pairs of voters both reach this "quorum". -/
theorem quorum_size_four_node_cluster :
    quorum_size fourNodeServer = 2 ∧ quorum_size fourNodeServer ≠ 4 / 2 + 1 := by
  constructor <;> decide

/-- C2 counterexample: `staleEntryLeader` is at term 2, its only entry has
term 1 and is not committed; a quorum of acks (itself and follower 1) makes
`commit_log_entries` commit and deliver that earlier-term entry anyway — the
leader-completeness guard the claim describes is absent. -/
theorem commit_ignores_entry_term :
    staleEntryLeader.current_term = 2 ∧
    staleEntryLeader.log.entries.map (·.term) = [1] ∧
    staleEntryLeader.log.committed_len = 0 ∧
    (commit_log_entries staleEntryLeader).log.committed_len = 1 ∧
    (commit_log_entries staleEntryLeader).log.delivered = [7] := by
  refine ⟨rfl, rfl, rfl, ?_, ?_⟩ <;> decide

/-- C3: a follower at term 1 with 3 entries receiving a same-term
AppendRequest with `prev_len = 5` aborts: the binding
`last_log_entry_matches_terms` is evaluated eagerly, so
`entries.get(4).expect("invalid leader_last_log_idx")` panics instead of the
claimed `ok = false, ack_len = 3` reply. -/
theorem append_request_long_prefix_aborts :
    rpc_append_request threeEntryFollower overClaimReq = none := by decide

/-- C5: `replicate_log` towards a follower recorded at `sent_up_to = 0`
aborts — `prefix_len - 1` underflows `usize` and the
`entries.get(...).expect(...)` panics — instead of emitting the claimed
AppendRequest with `prev_term = 0`. -/
theorem replicate_log_zero_prefix_aborts :
    replicate_log backtrackedLeader (Target.Single 1) = none := by decide

/-- C6: `client_request` on a leader appends `LogEntry{term = 1, 42}` and
returns success, but its outbound output is empty — the AppendRequest
broadcast built by `replicate_log` is discarded (the Rust signature is
`Result<()>`), contradicting the claimed broadcast. -/
theorem client_request_drops_messages :
    client_request freshLeader 42 =
      some ({ freshLeader with log := { freshLeader.log with entries := [⟨1, 42⟩] } },
        Except.ok (), []) := by rfl

/-- C7 counterexample: a Candidate at term 2 receiving an AppendRequest with
`leader_term = 1 < 2` emits no message at all (the claim demands exactly one
`ok = false` AppendResponse in every leadership state). -/
theorem stale_append_to_candidate_ignored :
    rpc_append_request candidateTwo staleReq = some (candidateTwo, []) := by decide

/-- C8 counterexample: a Leader at term 2 receiving an AppendResponse with
`term = 1 < 2` aborts (the explicit `panic!` on a stale-term response)
instead of the claimed no-action tolerance. -/
theorem leader_aborts_on_stale_ack :
    rpc_append_response termTwoLeader staleAck = none := by decide

/-- C9 counterexample: `client_request` on a non-leader returns one fixed
error string whether the last known leader is `some 5` or `none` — the error
does not contain the last known leader id as claimed. -/
theorem not_leader_error_lacks_leader_id :
    client_request followerWithLeader 7 =
      some (followerWithLeader, Except.error "cannot add a log entry to a non-leader!", []) ∧
    client_request followerNoLeader 7 =
      some (followerNoLeader, Except.error "cannot add a log entry to a non-leader!", []) := by
  exact ⟨rfl, rfl⟩

/-- C4 counterexample: when `candidateZero` (peers `{1, 2}`) wins with votes
`{0, 1}`, the resulting followers map is keyed `[0, 1]` — it contains the
replica's own id 0 and omits peer 2, so `domain(followers) ≠ peers`. -/
theorem followers_map_keyed_by_voters :
    (rpc_vote_response candidateZero grantFromOne).map (fun r => r.1.leadership_state) =
      some (.Leader [(0, ⟨1, 0⟩), (1, ⟨1, 0⟩)] 2) ∧
    candidateZero.peers = [1, 2] := by
  constructor <;> decide

/-- `deliver_msg` leaves `committed_len` untouched. -/
theorem deliver_msg_committed_len (l : Log T) :
    l.deliver_msg.committed_len = l.committed_len := by
  unfold Log.deliver_msg; split <;> rfl

/-- `deliver_msg` leaves `entries` untouched. -/
theorem deliver_msg_entries (l : Log T) :
    l.deliver_msg.entries = l.entries := by
  unfold Log.deliver_msg; split <;> rfl

/-- The commit loop never moves `committed_len` backwards. -/
theorem commitLoop_committed_len_le (quorum : Nat)
    (followers : List (ServerId × NodeReplicationState)) (fuel : Nat) (log : Log T) :
    log.committed_len ≤ (commitLoop quorum followers fuel log).committed_len := by
  induction fuel generalizing log with
  | zero => exact Nat.le_refl _
  | succ n ih =>
    unfold commitLoop
    split
    · split
      · refine Nat.le_trans ?_ (ih _)
        simp only [deliver_msg_committed_len]
        exact Nat.le_succ _
      · exact Nat.le_refl _
    · exact Nat.le_refl _

/-- C2 (amended): on a Leader with an uncommitted entry, commit advancement
fires precisely when the ack count (self plus the followers acked past
`committed_len`) reaches quorum — the term of the entry at `committed_len` is
never consulted, so earlier-term entries are committed directly by counting
replicas. -/
theorem commit_advances_iff_quorum (s : RaftServer T)
    (followers : List (ServerId × NodeReplicationState)) (hb : Ticks)
    (hL : s.leadership_state = .Leader followers hb)
    (hlt : s.log.committed_len < s.log.entries.length) :
    s.log.committed_len < (commit_log_entries s).log.committed_len ↔
      quorum_size s ≤
        (followers.filter fun f => decide (s.log.committed_len < f.2.acked_up_to)).length + 1 := by
  unfold commit_log_entries
  simp only [hL]
  have hpos : 0 < s.log.entries.length := Nat.lt_of_le_of_lt (Nat.zero_le _) hlt
  obtain ⟨n, hn⟩ : ∃ n, s.log.entries.length = n + 1 :=
    ⟨s.log.entries.length - 1, (Nat.succ_pred_eq_of_pos hpos).symm⟩
  rw [hn]
  unfold commitLoop
  rw [if_pos hlt]
  constructor
  · intro hadv
    by_contra hq
    rw [if_neg hq] at hadv
    exact Nat.lt_irrefl _ hadv
  · intro hq
    rw [if_pos hq]
    refine Nat.lt_of_lt_of_le ?_ (commitLoop_committed_len_le _ _ _ _)
    simp only [deliver_msg_committed_len]
    exact Nat.lt_succ_self _

/-- C2 witness: `commit_advances_iff_quorum` instantiated at
`staleEntryLeader`, whose only (term-1) entry is uncommitted. -/
theorem commit_advances_iff_quorum_witness :
    staleEntryLeader.log.committed_len <
        (commit_log_entries staleEntryLeader).log.committed_len ↔
      quorum_size staleEntryLeader ≤
        (([(1, ⟨1, 1⟩), (2, ⟨1, 0⟩)] :
            List (ServerId × NodeReplicationState)).filter fun f =>
          decide (staleEntryLeader.log.committed_len < f.2.acked_up_to)).length + 1 :=
  commit_advances_iff_quorum staleEntryLeader [(1, ⟨1, 1⟩), (2, ⟨1, 0⟩)] 2 rfl (by decide)

/-- C4 (amended): when a same-term granted vote brings `votes_received` up to
quorum and the handler completes, the new Leader's followers map is keyed by
the voter set — the replica's own id included, peers that did not vote
absent — and every entry starts at `sent_up_to = last_idx + 1`
(`= len(entries)` on a nonempty log, `1` on an empty one) and
`acked_up_to = 0`, with the heartbeat timer reset. -/
theorem become_leader_followers_map (s : RaftServer T) (et : Ticks) (votes : List ServerId)
    (res : VoteResponse) (s' : RaftServer T) (msgs : List (SendableMessage T))
    (hC : s.leadership_state = .Candidate et votes)
    (hterm : res.term = s.current_term)
    (hgrant : res.vote_granted = true)
    (hq : quorum_size s ≤ (btreeInsert res.votee_id votes).length)
    (h : rpc_vote_response s res = some (s', msgs)) :
    s'.leadership_state =
      .Leader ((btreeInsert res.votee_id votes).map fun votee =>
          (votee, NodeReplicationState.mk (s.log.last_idx + 1) 0))
        s.config.heartbeat_interval := by
  have hngt : ¬ s.current_term < res.term := by rw [hterm]; exact Nat.lt_irrefl _
  unfold rpc_vote_response at h
  rw [if_neg hngt] at h
  simp only [hC] at h
  rw [if_pos ⟨hterm, hgrant⟩] at h
  rw [if_neg (Nat.not_lt.mpr hq)] at h
  obtain ⟨ms, _, hf⟩ := Option.map_eq_some'.mp h
  obtain ⟨h1, -⟩ := Prod.mk.injEq .. ▸ hf
  exact h1 ▸ rfl

/-- C4 witness: `become_leader_followers_map` at `candidateZero` receiving
the granted vote `grantFromOne`. -/
theorem become_leader_followers_map_witness :
    promotedZero.leadership_state =
      .Leader ((btreeInsert 1 [0]).map fun votee =>
          (votee, NodeReplicationState.mk (candidateZero.log.last_idx + 1) 0))
        candidateZero.config.heartbeat_interval :=
  become_leader_followers_map candidateZero 10 [0] grantFromOne promotedZero promoMsgs
    rfl rfl rfl (by decide) (by decide)

/-- C7 (amended): an AppendRequest carrying a term strictly below
`current_term` changes nothing; only a Follower answers it (with a single
`ok = false` response to the sender), a Candidate or Leader stays silent. -/
theorem stale_append_request_reply (s : RaftServer T) (req : AppendRequest T)
    (h : req.leader_term < s.current_term) :
    rpc_append_request s req =
      some (s, match s.leadership_state with
        | .Follower _ _ =>
          [(Target.Single req.leader_id,
            RPC.AppendResponse
              { ok := false, term := s.current_term,
                ack_idx := s.log.entries.length, follower_id := s.id })]
        | _ => []) := by
  have hngt : ¬ s.current_term < req.leader_term := Nat.lt_asymm h
  have hne : ¬ req.leader_term = s.current_term := Nat.ne_of_lt h
  unfold rpc_append_request
  rw [if_neg hngt]
  cases hL : s.leadership_state with
  | Follower et ldr =>
    simp only [hL]
    unfold follower_append
    simp only [hL]
    rw [if_neg hne]
  | Candidate et votes =>
    simp only [hL]
    rw [if_neg hne]
  | Leader followers hb =>
    simp only [hL]
    rw [if_neg hne]

/-- C7 witness: `stale_append_request_reply` at the follower `followerTwo`
receiving the stale request `staleReq` of term 1. -/
theorem stale_append_request_reply_witness :
    rpc_append_request followerTwo staleReq =
      some (followerTwo,
        [(Target.Single 0, RPC.AppendResponse
          { ok := false, term := 2, ack_idx := 0, follower_id := 2 })]) :=
  stale_append_request_reply followerTwo staleReq (by decide)

/-- C8 (amended): a Leader receiving an AppendResponse with a term strictly
below `current_term` does not tolerate it — the handler hits the explicit
`panic!` and aborts instead of taking no action. -/
theorem stale_append_response_aborts (s : RaftServer T) (res : AppendResponse)
    (followers : List (ServerId × NodeReplicationState)) (hb : Ticks)
    (hL : s.leadership_state = .Leader followers hb)
    (h : res.term < s.current_term) :
    rpc_append_response s res = none := by
  have hngt : ¬ s.current_term < res.term := Nat.lt_asymm h
  have hne : ¬ res.term = s.current_term := Nat.ne_of_lt h
  unfold rpc_append_response
  rw [if_neg hngt]
  simp only [hL]
  rw [if_neg hne]

/-- C8 witness: `stale_append_response_aborts` at `termTwoLeader` and a
failed response still carrying term 0. -/
theorem stale_append_response_aborts_witness :
    rpc_append_response termTwoLeader
      { ok := false, term := 0, ack_idx := 0, follower_id := 2 } = none :=
  stale_append_response_aborts termTwoLeader
    { ok := false, term := 0, ack_idx := 0, follower_id := 2 }
    [(1, ⟨1, 1⟩), (2, ⟨1, 0⟩)] 2 rfl (by decide)

/-- C9 (amended): `client_request` on a non-leader fails with the one fixed
error message (which carries no leader id), emits nothing and leaves the
whole replica state unchanged. -/
theorem client_request_not_leader (s : RaftServer T) (cmd : T)
    (h : is_leader s = false) :
    client_request s cmd =
      some (s, Except.error "cannot add a log entry to a non-leader!", []) := by
  unfold client_request
  cases hL : s.leadership_state with
  | Leader followers hb =>
    exfalso
    unfold is_leader at h
    rw [hL] at h
    exact Bool.noConfusion h
  | Follower et ldr => simp only [hL]
  | Candidate et votes => simp only [hL]

/-- C9 witness: `client_request_not_leader` at the candidate
`candidateTwo`. -/
theorem client_request_not_leader_witness :
    client_request candidateTwo 7 =
      some (candidateTwo, Except.error "cannot add a log entry to a non-leader!", []) :=
  client_request_not_leader candidateTwo 7 (by decide)

/-- `reset_to_follower` installs exactly the requested term. -/
theorem reset_to_follower_term (s : RaftServer T) (t : Term) :
    (reset_to_follower s t).current_term = t := rfl

/-- `commit_log_entries` never touches `current_term`. -/
theorem commit_log_entries_term (s : RaftServer T) :
    (commit_log_entries s).current_term = s.current_term := by
  unfold commit_log_entries; split <;> rfl

/-- `tick` never lowers `current_term` (it raises it exactly on an election
start). -/
theorem tick_term_mono (s s' : RaftServer T) (ms : List (SendableMessage T))
    (h : tick s = some (s', ms)) : s.current_term ≤ s'.current_term := by
  simp only [tick, start_election, random_election_time] at h
  split at h
  case h_1 et leader =>
    split at h
    · injection h with h1
      have h2 : _ = s' := congrArg Prod.fst h1
      subst h2
      exact Nat.le_succ _
    · injection h with h1
      have h2 : _ = s' := congrArg Prod.fst h1
      subst h2
      exact Nat.le_refl _
  case h_2 et votes =>
    split at h
    · injection h with h1
      have h2 : _ = s' := congrArg Prod.fst h1
      subst h2
      exact Nat.le_succ _
    · injection h with h1
      have h2 : _ = s' := congrArg Prod.fst h1
      subst h2
      exact Nat.le_refl _
  case h_3 followers hb =>
    split at h
    · obtain ⟨msgs, -, hf⟩ := Option.map_eq_some'.mp h
      have h2 : _ = s' := congrArg Prod.fst hf
      subst h2
      exact Nat.le_refl _
    · injection h with h1
      have h2 : _ = s' := congrArg Prod.fst h1
      subst h2
      exact Nat.le_refl _

/-- `rpc_vote_request` never lowers `current_term`. -/
theorem rpc_vote_request_term_mono (s : RaftServer T) (req : VoteRequest) :
    s.current_term ≤ (rpc_vote_request s req).1.current_term := by
  simp only [rpc_vote_request]
  split
  next hgt => split <;> exact Nat.le_of_lt hgt
  next hgt => split <;> exact Nat.le_refl _

/-- `rpc_vote_response` never lowers `current_term`. -/
theorem rpc_vote_response_term_mono (s : RaftServer T) (res : VoteResponse)
    (s' : RaftServer T) (ms : List (SendableMessage T))
    (h : rpc_vote_response s res = some (s', ms)) :
    s.current_term ≤ s'.current_term := by
  by_cases hgt : res.term > s.current_term
  · simp only [rpc_vote_response, if_pos hgt, reset_to_follower, random_election_time] at h
    injection h with h1
    have h2 : _ = s' := congrArg Prod.fst h1
    subst h2
    exact Nat.le_of_lt hgt
  · simp only [rpc_vote_response, if_neg hgt] at h
    cases hL : s.leadership_state with
    | Candidate et votes =>
      simp only [hL] at h
      split at h
      · split at h
        · injection h with h1
          have h2 : _ = s' := congrArg Prod.fst h1
          subst h2
          exact Nat.le_refl _
        · obtain ⟨msgs, -, hf⟩ := Option.map_eq_some'.mp h
          have h2 : _ = s' := congrArg Prod.fst hf
          subst h2
          exact Nat.le_refl _
      · injection h with h1
        have h2 : _ = s' := congrArg Prod.fst h1
        subst h2
        exact Nat.le_refl _
    | Follower et ldr =>
      simp only [hL] at h
      injection h with h1
      have h2 : _ = s' := congrArg Prod.fst h1
      subst h2
      exact Nat.le_refl _
    | Leader followers hb =>
      simp only [hL] at h
      injection h with h1
      have h2 : _ = s' := congrArg Prod.fst h1
      subst h2
      exact Nat.le_refl _

/-- The Follower arm of append handling never changes `current_term`. -/
theorem follower_append_term (s : RaftServer T) (req : AppendRequest T)
    (s' : RaftServer T) (ms : List (SendableMessage T))
    (h : follower_append s req = some (s', ms)) :
    s'.current_term = s.current_term := by
  simp only [follower_append] at h
  repeat' split at h
  all_goals first
    | exact Option.noConfusion h
    | (injection h with h1
       have h2 : _ = s' := congrArg Prod.fst h1
       subst h2
       rfl)

/-- `rpc_append_request` never lowers `current_term`. -/
theorem rpc_append_request_term_mono (s : RaftServer T) (req : AppendRequest T)
    (s' : RaftServer T) (ms : List (SendableMessage T))
    (h : rpc_append_request s req = some (s', ms)) :
    s.current_term ≤ s'.current_term := by
  by_cases hgt : req.leader_term > s.current_term
  · simp only [rpc_append_request, if_pos hgt, reset_to_follower, random_election_time] at h
    have ht := follower_append_term _ req s' ms h
    rw [ht]
    exact Nat.le_of_lt hgt
  · simp only [rpc_append_request, if_neg hgt] at h
    cases hL : s.leadership_state with
    | Follower et ldr =>
      simp only [hL] at h
      have ht := follower_append_term s req s' ms h
      exact Nat.le_of_eq ht.symm
    | Candidate et votes =>
      simp only [hL] at h
      split at h
      next heq =>
        have ht := follower_append_term _ req s' ms h
        rw [ht, reset_to_follower_term]
        exact Nat.le_of_eq heq.symm
      next heq =>
        injection h with h1
        have h2 : _ = s' := congrArg Prod.fst h1
        subst h2
        exact Nat.le_refl _
    | Leader followers hb =>
      simp only [hL] at h
      split at h
      next heq =>
        have ht := follower_append_term _ req s' ms h
        rw [ht, reset_to_follower_term]
        exact Nat.le_of_eq heq.symm
      next heq =>
        injection h with h1
        have h2 : _ = s' := congrArg Prod.fst h1
        subst h2
        exact Nat.le_refl _

/-- `rpc_append_response` never lowers `current_term`. -/
theorem rpc_append_response_term_mono (s : RaftServer T) (res : AppendResponse)
    (s' : RaftServer T) (ms : List (SendableMessage T))
    (h : rpc_append_response s res = some (s', ms)) :
    s.current_term ≤ s'.current_term := by
  by_cases hgt : res.term > s.current_term
  · simp only [rpc_append_response, if_pos hgt, reset_to_follower, random_election_time] at h
    injection h with h1
    have h2 : _ = s' := congrArg Prod.fst h1
    subst h2
    exact Nat.le_of_lt hgt
  · simp only [rpc_append_response, if_neg hgt] at h
    cases hL : s.leadership_state with
    | Leader followers hb =>
      simp only [hL] at h
      split at h
      · split at h
        · exact Option.noConfusion h
        · split at h
          · injection h with h1
            have h2 : _ = s' := congrArg Prod.fst h1
            subst h2
            rw [commit_log_entries_term]
          · split at h
            · obtain ⟨msgs, -, hf⟩ := Option.map_eq_some'.mp h
              have h2 : _ = s' := congrArg Prod.fst hf
              subst h2
              exact Nat.le_refl _
            · exact Option.noConfusion h
      · exact Option.noConfusion h
    | Follower et ldr =>
      simp only [hL] at h
      injection h with h1
      have h2 : _ = s' := congrArg Prod.fst h1
      subst h2
      exact Nat.le_refl _
    | Candidate et votes =>
      simp only [hL] at h
      injection h with h1
      have h2 : _ = s' := congrArg Prod.fst h1
      subst h2
      exact Nat.le_refl _

/-- `client_request` never changes `current_term`. -/
theorem client_request_term_mono (s : RaftServer T) (cmd : T)
    (s' : RaftServer T) (r : Except String Unit) (ms : List (SendableMessage T))
    (h : client_request s cmd = some (s', r, ms)) :
    s.current_term ≤ s'.current_term := by
  simp only [client_request] at h
  split at h
  · obtain ⟨msgs, -, hf⟩ := Option.map_eq_some'.mp h
    have h2 : _ = s' := congrArg Prod.fst hf
    subst h2
    exact Nat.le_refl _
  all_goals
    injection h with h1
    have h2 : _ = s' := congrArg Prod.fst h1
    subst h2
    exact Nat.le_refl _

/-- C10: across every entry point — `tick`, `receive_rpc` with any of the
four message variants, and `client_request` — an invocation that runs to
completion never lowers `current_term`. -/
theorem current_term_monotone (s : RaftServer T) (i : Input T) (s' : RaftServer T)
    (h : step s i = some s') : s.current_term ≤ s'.current_term := by
  cases i with
  | tick =>
    simp only [step] at h
    obtain ⟨⟨s1, ms⟩, h1, rfl⟩ := Option.map_eq_some'.mp h
    exact tick_term_mono s s1 ms h1
  | rpc m =>
    simp only [step] at h
    obtain ⟨⟨s1, ms⟩, h1, rfl⟩ := Option.map_eq_some'.mp h
    cases m with
    | VoteRequest req =>
      simp only [receive_rpc] at h1
      injection h1 with h1
      have := rpc_vote_request_term_mono s req
      rw [h1] at this
      exact this
    | VoteResponse res =>
      exact rpc_vote_response_term_mono s res s1 ms h1
    | AppendRequest req =>
      exact rpc_append_request_term_mono s req s1 ms h1
    | AppendResponse res =>
      exact rpc_append_response_term_mono s res s1 ms h1
  | client cmd =>
    simp only [step] at h
    obtain ⟨⟨s1, r, ms⟩, h1, rfl⟩ := Option.map_eq_some'.mp h
    exact client_request_term_mono s cmd s1 r ms h1

/-- A quiet follower at term 3 used to witness C10. -/
def idleFollower : RaftServer Nat :=
  mkServer 4 [0, 1] 3 none emptyLog (.Follower 10 none)

/-- `idleFollower` after one tick: the election timer decremented to 9. -/
def idleFollowerTicked : RaftServer Nat :=
  { idleFollower with leadership_state := .Follower 9 none }

/-- C10 witness: `current_term_monotone` applied to one concrete tick of
`idleFollower`. -/
theorem current_term_monotone_witness :
    idleFollower.current_term ≤ idleFollowerTicked.current_term :=
  current_term_monotone idleFollower Input.tick idleFollowerTicked (by decide)
